import Mathlib

/-!
Verification of the reactive-tkinter runtime (rotk.py) and its demo reducer
(demo_reducer.py) against the natural-language specification.

The Python source is shallowly embedded: pure fragments become Lean
functions; the mutable objects (Observable, Store, component bookkeeping,
the container reconciler state) become explicit state values threaded
through functions.  Callback objects and widget handles are modelled by
natural-number identities (Python object identity); Python dicts keyed by
strings become association lists with insertion-order semantics; code
paths that would raise an uncaught exception return none / an error value.
-/

set_option maxRecDepth 4000

namespace Rotk

/-! ## Python-dict association lists

Python dicts preserve insertion order.  We model a dict as a list of
key/value pairs: assignment replaces in place when the key exists,
otherwise appends; lookup finds the (unique) entry; deletion filters the
key out.  List.lookup returns the first match, which agrees with dict
lookup because keys are kept unique by dictInsert. -/

abbrev PyDict (β : Type) := List (String × β)

def dictInsert (k : String) (v : β) : PyDict β → PyDict β
  | [] => [(k, v)]
  | (k', v') :: rest =>
    if k' = k then (k, v) :: rest else (k', v') :: dictInsert k v rest

def dictErase (k : String) (d : PyDict β) : PyDict β :=
  d.filter (fun p => p.1 ≠ k)

def dictKeys (d : PyDict β) : List String :=
  d.map Prod.fst

def dictInsertAll (ps : List (String × β)) (acc : PyDict β) : PyDict β :=
  ps.foldl (fun m p => dictInsert p.1 p.2 m) acc

/-! ## Python list.remove with the ValueError swallowed

rotk.py, Observable.subscribe / Store.subscribe: the returned unsubscribe
closure runs self._subscribers.remove(callback) inside try/except
ValueError: pass.  list.remove deletes the first occurrence and raises
when absent; with the except clause the combined behaviour is: delete the
first occurrence if any, otherwise do nothing. -/

def removeFirst [DecidableEq α] (x : α) : List α → List α
  | [] => []
  | y :: ys => if y = x then ys else y :: removeFirst x ys

/-! ## Observable  (rotk.py lines 23-48)

Subscriber callbacks are modelled by Nat identities.  set returns the new
cell state together with the snapshot list of subscribers notified by this
call (each entry receives the new value), in subscription order; a
comparing-equal set returns the unchanged state and notifies nobody. -/

structure Observable (α : Type) where
  value : α
  subscribers : List Nat
deriving DecidableEq, Repr

def Observable.set [BEq α] (o : Observable α) (v : α) : Observable α × List Nat :=
  if v == o.value then (o, [])
  else ({ o with value := v }, o.subscribers)

def Observable.subscribe (o : Observable α) (cb : Nat) : Observable α :=
  { o with subscribers := o.subscribers ++ [cb] }

/-- One invocation of the unsubscribe closure returned by subscribe(cb):
self._subscribers.remove(callback) with ValueError swallowed. -/
def Observable.unsubscribeCall (o : Observable α) (cb : Nat) : Observable α :=
  { o with subscribers := removeFirst cb o.subscribers }

/-- Running a sequence of set calls; returns the final state and, per
call, the list of subscriber notifications that call emitted. -/
def Observable.setAll [BEq α] (o : Observable α) :
    List α → Observable α × List (List Nat)
  | [] => (o, [])
  | v :: vs =>
    let p := o.set v
    let q := Observable.setAll p.1 vs
    (q.1, p.2 :: q.2)

/-! ## Store  (rotk.py lines 59-101)

The reducer is stored in the instance; listeners are Nat identities.
dispatch replaces the state with reducer(state, action) and notifies the
snapshot of the listener list (listener callbacks take no payload). -/

structure Store (σ : Type) (A : Type) where
  reducer : σ → A → σ
  state : σ
  listeners : List Nat

def Store.get_state (st : Store σ A) : σ := st.state

def Store.dispatch (st : Store σ A) (a : A) : Store σ A × List Nat :=
  ({ st with state := st.reducer st.state a }, st.listeners)

def Store.subscribe (st : Store σ A) (cb : Nat) : Store σ A :=
  { st with listeners := st.listeners ++ [cb] }

/-- One invocation of the unsubscribe closure returned by Store.subscribe:
self._listeners.remove(listener) with ValueError swallowed. -/
def Store.unsubscribeCall (st : Store σ A) (cb : Nat) : Store σ A :=
  { st with listeners := removeFirst cb st.listeners }

/-! ## Module-level store singleton  (rotk.py lines 90-101)

_CURRENT_STORE is an Option; get_store raises
RuntimeError("Store not configured") when it is unset — the spec calls
this error kind ConfigurationError.  The store instance is modelled by a
Nat identity. -/

def configure_store (_current : Option Nat) (store : Nat) : Option Nat :=
  some store

def get_store (current : Option Nat) : Except String Nat :=
  match current with
  | none => Except.error "Store not configured"
  | some s => Except.ok s

/-- Component.use_dispatch first calls get_store, so it fails the same
way before configuration (rotk.py lines 233-235). -/
def use_dispatch (current : Option Nat) : Except String Nat :=
  get_store current

/-! ## Selector binding  (rotk.py lines 237-266 and use_state setter 224-230)

The binding state is the disposed flag of the owning component together
with the current value of the hook-slot Observable.  _on_store_change
recomputes selector(store.get_state()); if equality(new, obs.value) it
returns doing nothing, otherwise it calls the hook setter, which (the
component not being disposed) runs obs.set(new) — itself guarded by
Python == on the observable — and then invokes on_state_changed.  The
returned Bool reports whether on_state_changed (the re-render trampoline)
was invoked. -/

structure SelBinding (τ : Type) where
  disposed : Bool
  obsValue : τ

def onStoreChange [BEq τ] (sel : σ → τ) (eqf : τ → τ → Bool)
    (b : SelBinding τ) (state : σ) : SelBinding τ × Bool :=
  if b.disposed then (b, false)
  else
    let newValue := sel state
    if eqf newValue b.obsValue then (b, false)
    else
      ({ b with
          obsValue := if newValue == b.obsValue then b.obsValue else newValue },
        true)

/-- A Store.dispatch followed by the store notification reaching this
binding: the subscription callback reads store.get_state() after the
state swap. -/
def dispatchSel [BEq τ] (sel : σ → τ) (eqf : τ → τ → Bool)
    (st : Store σ A) (b : SelBinding τ) (a : A) :
    Store σ A × SelBinding τ × Bool :=
  let st' := (st.dispatch a).1
  let r := onStoreChange sel eqf b st'.get_state
  (st', r.1, r.2)

/-! ## Component disposal  (rotk.py lines 158-168, 188-194)

A component carries its disposed flag and the list of tracked
unsubscribe targets (each use_store_selector binding tracks the closure
unsubscribing its fresh _on_store_change listener).  dispose runs every
tracked unsubscribe against the store listener list and clears the list;
a second dispose is a no-op.  The Destroy-event handler bound in mount
fires dispose (after the guarded registry unregister) exactly when the
event widget is the component root. -/

structure CompState where
  disposed : Bool
  subscriptions : List Nat
deriving DecidableEq, Repr

def runUnsubs (subs : List Nat) (listeners : List Nat) : List Nat :=
  subs.foldl (fun ls s => removeFirst s ls) listeners

def CompState.dispose (c : CompState) (listeners : List Nat) :
    CompState × List Nat :=
  if c.disposed then (c, listeners)
  else ({ disposed := true, subscriptions := [] }, runUnsubs c.subscriptions listeners)

/-- TkRegistry.unregister (rotk.py lines 114-122): remove the entry only
if it still resolves to exactly the given widget. -/
def registryUnregister (id : String) (widget : Option Nat)
    (reg : PyDict Nat) : PyDict Nat :=
  match reg.lookup id with
  | none => reg
  | some current =>
    match widget with
    | some w => if current = w then dictErase id reg else reg
    | none => dictErase id reg

/-- The _on_destroy closure bound in Component.mount: when the destroyed
widget is the component root, unregister from the registry (guarded) and
dispose the component. -/
def onDestroyEvent (eventWidget root : Nat) (cid : String)
    (reg : PyDict Nat) (c : CompState) (listeners : List Nat) :
    PyDict Nat × CompState × List Nat :=
  if eventWidget = root then
    let p := c.dispose listeners
    (registryUnregister cid (some root) reg, p.1, p.2)
  else (reg, c, listeners)

/-! ## Layout option resolution  (rotk.py lines 473-512, 546-571, 717-773)

A child component is identified by its id string and its Python object
identity (ref).  Layout options come either as a RowLayout / ColumnLayout
dataclass or as a raw opts dict; both resolve to the dict the refresh
loop pops from.  GridOpts models that dict: each field is present
(some) or absent (none); extra models any further keys a dict-form layout
passes through verbatim to grid.  size is the width key for Row and the
height key for Column. -/

structure ComponentRef where
  id : String
  ref : Nat
deriving DecidableEq, Repr

structure GridOpts where
  sticky : Option String := none
  padx : Option Int := none
  pady : Option Int := none
  expand : Option Bool := none
  size : Option Int := none
  extra : List (String × Int) := []
deriving DecidableEq, Repr

inductive HAlign
  | LEFT
  | CENTER
  | RIGHT
  | STRETCH
deriving DecidableEq, Repr

inductive VAlign
  | TOP
  | CENTER
  | BOTTOM
  | STRETCH
deriving DecidableEq, Repr

structure RowLayout where
  expand : Bool := false
  width : Option Int := none
  halign : Option HAlign := none
  padx : Option Int := none
  pady : Option Int := none
  sticky : Option String := none
deriving DecidableEq, Repr

structure ColumnLayout where
  expand : Bool := false
  height : Option Int := none
  valign : Option VAlign := none
  halign : Option HAlign := none
  padx : Option Int := none
  pady : Option Int := none
  sticky : Option String := none
deriving DecidableEq, Repr

/-- Row._row_layout_to_opts (rotk.py lines 546-571). -/
def row_layout_to_opts (l : RowLayout) : GridOpts :=
  let sticky : Option String :=
    match l.sticky with
    | some s => some s
    | none =>
      match l.halign with
      | some HAlign.LEFT => some "w"
      | some HAlign.CENTER => some ""
      | some HAlign.RIGHT => some "e"
      | some HAlign.STRETCH => some "we"
      | none => none
  { sticky := sticky
    padx := l.padx
    pady := l.pady
    expand := if l.expand then some true else none
    size := l.width
    extra := [] }

/-- The parts-deduplication loop in Column._column_layout_to_opts:
keep each non-empty letter once, in first-appearance order. -/
def dedupLetters (parts : List String) : List String :=
  parts.foldl
    (fun ordered letter =>
      if letter ≠ "" ∧ letter ∉ ordered then ordered ++ [letter] else ordered)
    []

/-- Column._column_layout_to_opts (rotk.py lines 717-773). -/
def column_layout_to_opts (c : ColumnLayout) : GridOpts :=
  let stickyPair : Bool × String :=
    match c.sticky with
    | some s => (true, s)
    | none =>
      let vparts : List String :=
        match c.valign with
        | some VAlign.TOP => ["n"]
        | some VAlign.CENTER => []
        | some VAlign.BOTTOM => ["s"]
        | some VAlign.STRETCH => ["n", "s"]
        | none => []
      let hparts : List String :=
        match c.halign with
        | some HAlign.LEFT => ["w"]
        | some HAlign.CENTER => []
        | some HAlign.RIGHT => ["e"]
        | some HAlign.STRETCH => ["w", "e"]
        | none => []
      if c.valign.isSome || c.halign.isSome then
        (true, String.join (dedupLetters (vparts ++ hparts)))
      else (false, "")
  { sticky := if stickyPair.1 then some stickyPair.2 else none
    padx := c.padx
    pady := c.pady
    expand := if c.expand then some true else none
    size := c.height
    extra := [] }

/-- The Union[dataclass, dict] layout type of a Row child spec. -/
inductive RowChildLayout
  | layout (l : RowLayout)
  | dict (d : GridOpts)
deriving DecidableEq, Repr

/-- The Union[dataclass, dict] layout type of a Column child spec. -/
inductive ColumnChildLayout
  | layout (l : ColumnLayout)
  | dict (d : GridOpts)
deriving DecidableEq, Repr

def rowResolve : RowChildLayout → GridOpts
  | RowChildLayout.layout l => row_layout_to_opts l
  | RowChildLayout.dict d => d

def columnResolve : ColumnChildLayout → GridOpts
  | ColumnChildLayout.layout l => column_layout_to_opts l
  | ColumnChildLayout.dict d => d

/-- A (child, layout) pair from the declared child list; a bare child has
layout none. -/
structure ChildSpec (L : Type) where
  child : ComponentRef
  layout : Option L
deriving DecidableEq, Repr

/-! ## Container reconciler  (Row._refresh_children rotk.py 577-677,
Column._refresh_children rotk.py 779-879)

The two methods are textually parallel; refreshChildren is their common
algorithm, parameterized by the layout resolver (rowResolve /
columnResolve) and the container gap defaults.  Widget handles are Nat
identities; child.mount allocates the next handle from a fresh counter.

Modelling notes tied to the source:
- the grid_forget pass clears every surviving placement and step 5
  re-grids each one, so the final placement of every slot is exactly the
  grid call recorded here;
- the weight/minsize reset covers max(old, new) + 4 slots and each
  occupied slot is then given minsize = width/height (when supplied) and
  weight = 1 (when expand); a Placement therefore records the final
  per-slot minsize (reset 0 unless width/height given) and weight
  (reset 0 unless expand);
- self._child_widgets[cid] in the reuse branch indexes directly: an
  absent key would raise KeyError, modelled as the whole refresh
  returning none; likewise specs_by_id[cid] (which cannot fail, being
  built from the same list);
- refresh before build (root is None) returns without doing anything and
  is not modelled: refreshChildren is the body that runs once the root
  frame exists. -/

structure AxisState where
  mounted : PyDict ComponentRef
  widgets : PyDict Nat
  order : List String
deriving DecidableEq, Repr

structure Placement where
  cid : String
  widget : Nat
  pos : Nat
  sticky : String
  padx : Int
  pady : Int
  extra : List (String × Int)
  minsize : Int
  weight : Nat
deriving DecidableEq, Repr

/-- What happened to the id at one slot of the walk: the existing handle
was reused; the id was mounted with a different instance, so the old
handle (when present) was destroyed and a new one mounted; or the id was
new and mounted fresh. -/
inductive SlotEvent
  | reused (w : Nat)
  | replacedMount (old : Option Nat) (new : Nat)
  | mountedNew (w : Nat)
deriving DecidableEq, Repr

/-- Handles destroyed by the slot walk (the destroy in the
different-instance branch). -/
def slotDestroyed (evs : List SlotEvent) : List Nat :=
  evs.filterMap fun e =>
    match e with
    | SlotEvent.replacedMount (some w) _ => some w
    | _ => none

/-- Handles created by child.mount calls during the slot walk. -/
def mountedHandles (evs : List SlotEvent) : List Nat :=
  evs.filterMap fun e =>
    match e with
    | SlotEvent.replacedMount _ w => some w
    | SlotEvent.mountedNew w => some w
    | SlotEvent.reused _ => none

/-- The dict(layout or \x7b\x7d) / dataclass-resolution step at the top of the
slot walk. -/
def resolveLayout (R : L → GridOpts) : Option L → GridOpts
  | none => {}
  | some l => R l

/-- One slot's final placement: the pops with their defaults (sticky "w",
padx/pady the container gaps, expand False, width/height None), the
w.grid call at axis position pos, and the per-slot configure of minsize
and weight on top of the reset-to-zero pass. -/
def mkPlacement (gx gy : Int) (opts : GridOpts) (cid : String) (pos : Nat)
    (w : Nat) : Placement :=
  { cid := cid
    widget := w
    pos := pos
    sticky := opts.sticky.getD "w"
    padx := opts.padx.getD gx
    pady := opts.pady.getD gy
    extra := opts.extra
    minsize := opts.size.getD 0
    weight := if opts.expand.getD false then 1 else 0 }

/-- The reuse-or-mount decision for one id (rotk.py lines 645-655 /
847-857): same id with the same instance reuses the stored handle; a
mounted id with a different instance destroys the old handle (when the
widget entry exists) and mounts fresh; an unmounted id mounts fresh.
Returns (widget used, event, next fresh counter). -/
def slotStep (oldM : PyDict ComponentRef) (oldW : PyDict Nat) (cid : String)
    (child : ComponentRef) (fresh : Nat) : Option (Nat × SlotEvent × Nat) :=
  match oldM.lookup cid with
  | some c =>
    if c.ref = child.ref then
      match oldW.lookup cid with
      | some w => some (w, SlotEvent.reused w, fresh)
      | none => none
    else
      some (fresh, SlotEvent.replacedMount (oldW.lookup cid) fresh, fresh + 1)
  | none => some (fresh, SlotEvent.mountedNew fresh, fresh + 1)

structure LoopOut where
  placements : List Placement
  events : List SlotEvent
  newMounted : PyDict ComponentRef
  newWidgets : PyDict Nat
  fresh : Nat
deriving DecidableEq, Repr

/-- The ordered walk over the new id list (step 5): axis positions are
assigned 0, 1, 2, ... and new_mounted / new_widgets accumulate the
surviving table. -/
def reconcileLoop (R : L → GridOpts) (gx gy : Int)
    (oldM : PyDict ComponentRef) (oldW : PyDict Nat)
    (specsById : PyDict (ChildSpec L)) :
    List String → Nat → Nat → PyDict ComponentRef → PyDict Nat → Option LoopOut
  | [], _, fresh, accM, accW => some ⟨[], [], accM, accW, fresh⟩
  | cid :: rest, pos, fresh, accM, accW =>
    match specsById.lookup cid with
    | none => none
    | some spec =>
      match slotStep oldM oldW cid spec.child fresh with
      | none => none
      | some (w, ev, fresh') =>
        let pl := mkPlacement gx gy (resolveLayout R spec.layout) cid pos w
        match reconcileLoop R gx gy oldM oldW specsById rest (pos + 1) fresh'
            (dictInsert cid spec.child accM) (dictInsert cid w accW) with
        | none => none
        | some out =>
          some ⟨pl :: out.placements, ev :: out.events,
            out.newMounted, out.newWidgets, out.fresh⟩

/-- The removal pass (step 2): every currently mounted id absent from the
new list is popped from both tables and its widget handle destroyed. -/
def removeStep (newIds : List String)
    (acc : PyDict ComponentRef × PyDict Nat × List Nat) (cid : String) :
    PyDict ComponentRef × PyDict Nat × List Nat :=
  if cid ∈ newIds then acc
  else
    let des :=
      match acc.2.1.lookup cid with
      | some w => acc.2.2 ++ [w]
      | none => acc.2.2
    (dictErase cid acc.1, dictErase cid acc.2.1, des)

def removeAbsent (newIds : List String) (m : PyDict ComponentRef)
    (w : PyDict Nat) : PyDict ComponentRef × PyDict Nat × List Nat :=
  (dictKeys m).foldl (removeStep newIds) (m, w, [])

/-- specs_by_id: the id-keyed dict built while collecting new_ids. -/
def mkSpecsById (specs : List (ChildSpec L)) : PyDict (ChildSpec L) :=
  dictInsertAll (specs.map fun s => (s.child.id, s)) []

structure RefreshOut where
  state : AxisState
  placements : List Placement
  events : List SlotEvent
  removed : List Nat
  fresh : Nat
deriving DecidableEq, Repr

/-- Row._refresh_children / Column._refresh_children: the full refresh.
removed lists the handles destroyed by the removal pass; events records
per slot what the walk did; placements records each slot's final grid
call and sizing. -/
def refreshChildren (R : L → GridOpts) (gx gy : Int) (st : AxisState)
    (specs : List (ChildSpec L)) (fresh : Nat) : Option RefreshOut :=
  let newIds := specs.map fun s => s.child.id
  let specsById := mkSpecsById specs
  let rm := removeAbsent newIds st.mounted st.widgets
  match reconcileLoop R gx gy rm.1 rm.2.1 specsById newIds 0 fresh [] [] with
  | none => none
  | some out =>
    some ⟨⟨out.newMounted, out.newWidgets, newIds⟩,
      out.placements, out.events, rm.2.2, out.fresh⟩

/-- Row._refresh_children with the Row defaults wired in. -/
def Row_refresh_children (gx gy : Int) (st : AxisState)
    (specs : List (ChildSpec RowChildLayout)) (fresh : Nat) : Option RefreshOut :=
  refreshChildren rowResolve gx gy st specs fresh

/-- Column._refresh_children with the Column defaults wired in. -/
def Column_refresh_children (gx gy : Int) (st : AxisState)
    (specs : List (ChildSpec ColumnChildLayout)) (fresh : Nat) : Option RefreshOut :=
  refreshChildren columnResolve gx gy st specs fresh

end Rotk

namespace Demo

/-! ## The to-do demo reducer  (demo_reducer.py)

The state dict carries the keys status, summary, clear_enabled, tasks and
next_task_id; each field is Option-valued to model key absence, and the
reducer reads them with the same defaults the Python .get calls use.
Task ids are Int (Python int); ADD_TASK strips the payload with pyStrip
(Python str.strip of surrounding whitespace). -/

structure Task where
  id : Int
  text : String
  done : Bool
deriving DecidableEq, Repr

structure TodoState where
  status : Option String := none
  summary : Option String := none
  clear_enabled : Option Bool := none
  tasks : Option (List Task) := none
  next_task_id : Option Int := none
deriving DecidableEq, Repr

/-- The action envelope: the type discriminator with its payload.  OTHER
covers every unrecognized type string, which falls through all branches. -/
inductive TodoAction
  | SET_STATUS (payload : Option String)
  | SET_SUMMARY (payload : Option String)
  | SET_CLEAR_ENABLED (payload : Option Bool)
  | ADD_TASK (payload : Option String)
  | DELETE_TASK (payload : Option Int)
  | TOGGLE_TASK_DONE (payload : Option Int)
  | CLEAR_DONE_TASKS
  | OTHER
deriving DecidableEq, Repr

/-- Python str.strip(): remove leading and trailing whitespace
characters. -/
def pyStrip (s : String) : String :=
  String.mk
    (((s.data.dropWhile Char.isWhitespace).reverse.dropWhile
        Char.isWhitespace).reverse)

/-- _derive_task_metadata (demo_reducer.py lines 6-10). -/
def derive_task_metadata (tasks : List Task) : String × Bool :=
  let openCount := tasks.countP fun t => !t.done
  let doneCount := tasks.countP fun t => t.done
  (toString openCount ++ " open / " ++ toString doneCount ++ " done",
    decide (doneCount > 0))

/-- _assign_tasks (demo_reducer.py lines 13-17). -/
def assign_tasks (st : TodoState) (tasks : List Task) : TodoState :=
  let meta := derive_task_metadata tasks
  { st with
    tasks := some tasks
    summary := some meta.1
    clear_enabled := some meta.2 }

/-- reducer (demo_reducer.py lines 20-84).  The Python body first takes a
shallow copy of the dict; the model is immutable, so returning state is
that copy. -/
def reducer (state : TodoState) (action : TodoAction) : TodoState :=
  match action with
  | TodoAction.SET_STATUS p => { state with status := some (p.getD "") }
  | TodoAction.SET_SUMMARY p => { state with summary := some (p.getD "") }
  | TodoAction.SET_CLEAR_ENABLED p =>
    { state with clear_enabled := some (p.getD false) }
  | TodoAction.ADD_TASK p =>
    let text := pyStrip (p.getD "")
    if text = "" then state
    else
      let nextId := state.next_task_id.getD 1
      let task : Task := { id := nextId, text := text, done := false }
      let tasks := state.tasks.getD [] ++ [task]
      assign_tasks { state with next_task_id := some (nextId + 1) } tasks
  | TodoAction.DELETE_TASK p =>
    match p with
    | none => state
    | some taskId =>
      let tasks := state.tasks.getD []
      let newTasks := tasks.filter fun t => t.id ≠ taskId
      if newTasks.length = tasks.length then state
      else assign_tasks state newTasks
  | TodoAction.TOGGLE_TASK_DONE p =>
    match p with
    | none => state
    | some taskId =>
      let tasks := state.tasks.getD []
      let newTasks := tasks.map fun t =>
        if t.id = taskId then { t with done := !t.done } else t
      let changed := tasks.any fun t => t.id = taskId
      if changed then assign_tasks state newTasks else state
  | TodoAction.CLEAR_DONE_TASKS =>
    let tasks := state.tasks.getD []
    let newTasks := tasks.filter fun t => !t.done
    if newTasks.length = tasks.length then state
    else assign_tasks state newTasks
  | TodoAction.OTHER => state

/-- The store state of C9: tasks present and empty, next task id 1, no
other keys. -/
def initialClaimState : TodoState :=
  { tasks := some [], next_task_id := some 1 }

/-- The four action kinds that rebuild the task list. -/
def isTaskAction : TodoAction → Prop
  | TodoAction.ADD_TASK _ => True
  | TodoAction.DELETE_TASK _ => True
  | TodoAction.TOGGLE_TASK_DONE _ => True
  | TodoAction.CLEAR_DONE_TASKS => True
  | _ => False

end Demo

namespace Rotk

/-! ## Concrete instances used to exercise the reconciler theorems -/

/-- A one-child Row child list: child id "a", instance identity 1, no
layout options. -/
def exSpecs : List (ChildSpec RowChildLayout) :=
  [{ child := ⟨"a", 1⟩, layout := none }]

/-- The output of the first refresh of exSpecs from the empty container
state with fresh counter 0. -/
def exOut1 : RefreshOut :=
  ⟨⟨[("a", ⟨"a", 1⟩)], [("a", 0)], ["a"]⟩,
    [⟨"a", 0, 0, "w", 6, 4, [], 0, 0⟩],
    [SlotEvent.mountedNew 0], [], 1⟩

/-- The output of refreshing again with the unchanged list. -/
def exOut2 : RefreshOut :=
  ⟨⟨[("a", ⟨"a", 1⟩)], [("a", 0)], ["a"]⟩,
    [⟨"a", 0, 0, "w", 6, 4, [], 0, 0⟩],
    [SlotEvent.reused 0], [], 1⟩

end Rotk

/-! # Theorems -/

namespace Rotk

/-! ## Basic lemmas about removeFirst (Python list.remove) -/

theorem removeFirst_sublist [DecidableEq α] (x : α) (l : List α) :
    List.Sublist (removeFirst x l) l := by
  induction l with
  | nil => simp [removeFirst]
  | cons y ys ih =>
    unfold removeFirst
    split
    · exact List.sublist_cons_self y ys
    · exact ih.cons₂ y

theorem count_removeFirst_le [DecidableEq α] (x y : α) (l : List α) :
    (removeFirst x l).count y ≤ l.count y :=
  (removeFirst_sublist x l).count_le y

theorem count_removeFirst_self [DecidableEq α] (x : α) (l : List α) :
    (removeFirst x l).count x = l.count x - 1 := by
  induction l with
  | nil => simp [removeFirst]
  | cons y ys ih =>
    unfold removeFirst
    by_cases hyx : y = x
    · subst hyx
      simp [List.count_cons_self]
    · simp [hyx, List.count_cons_of_ne (Ne.symm hyx), ih]

theorem not_mem_removeFirst_of_count_le_one [DecidableEq α] (x : α)
    (l : List α) (h : l.count x ≤ 1) : x ∉ removeFirst x l := by
  intro hmem
  have hc : 0 < (removeFirst x l).count x := List.count_pos_iff.mpr hmem
  have := count_removeFirst_self x l
  omega

theorem removeFirst_of_not_mem [DecidableEq α] (x : α) (l : List α)
    (h : x ∉ l) : removeFirst x l = l := by
  induction l with
  | nil => rfl
  | cons y ys ih =>
    unfold removeFirst
    have hyx : y ≠ x := fun e => h (e ▸ List.mem_cons_self y ys)
    simp only [hyx, if_false]
    rw [ih (fun hm => h (List.mem_cons_of_mem y hm))]

theorem runUnsubs_sublist (subs ls : List Nat) :
    List.Sublist (runUnsubs subs ls) ls := by
  induction subs generalizing ls with
  | nil => exact List.Sublist.refl ls
  | cons s rest ih =>
    exact (ih (removeFirst s ls)).trans (removeFirst_sublist s ls)

theorem runUnsubs_removes (subs ls : List Nat)
    (h : ∀ s ∈ subs, ls.count s ≤ 1) :
    ∀ s ∈ subs, s ∉ runUnsubs subs ls := by
  induction subs generalizing ls with
  | nil => intro s hs; cases hs
  | cons s0 rest ih =>
    intro s hs
    have hstep : runUnsubs (s0 :: rest) ls = runUnsubs rest (removeFirst s0 ls) := rfl
    rw [hstep]
    rcases List.mem_cons.mp hs with he | hr
    · subst he
      have h0 : s ∉ removeFirst s ls :=
        not_mem_removeFirst_of_count_le_one s ls (h s (List.mem_cons_self s rest))
      exact fun hm => h0 ((runUnsubs_sublist rest (removeFirst s ls)).subset hm)
    · exact ih (removeFirst s0 ls)
        (fun t ht =>
          le_trans (count_removeFirst_le s0 t ls) (h t (List.mem_cons_of_mem s0 ht)))
        s hr

/-- C3: each set(v) call notifies every subscriber exactly when v differs
(by the equality in use) from the value stored immediately before the
call; a comparing-equal set changes nothing and notifies nobody; a firing
call notifies the snapshot of the subscriber list, which is constant in
subscription order across the whole set sequence. -/
theorem observable_set_exact {α : Type} [BEq α] (o : Observable α)
    (vs : List α) (i : Nat) (h : i < vs.length) :
    ((Observable.setAll o vs).2.get? i =
      some (if vs.get ⟨i, h⟩ == (Observable.setAll o (vs.take i)).1.value then []
            else (Observable.setAll o (vs.take i)).1.subscribers))
    ∧ (Observable.setAll o (vs.take i)).1.subscribers = o.subscribers
    ∧ ((vs.get ⟨i, h⟩ == (Observable.setAll o (vs.take i)).1.value) = true →
        (Observable.setAll o (vs.take (i + 1))).1 = (Observable.setAll o (vs.take i)).1) := by
  induction vs generalizing o i with
  | nil => exact absurd h (by simp)
  | cons v vs ih =>
    cases i with
    | zero =>
      refine ⟨?_, rfl, ?_⟩
      · show (Observable.setAll o (v :: vs)).2.get? 0 =
          some (if v == o.value then [] else o.subscribers)
        unfold Observable.setAll Observable.set
        split <;> rfl
      · intro hb
        have hb' : (v == o.value) = true := by simpa using hb
        show (Observable.setAll o [v]).1 = o
        simp [Observable.setAll, Observable.set, hb']
    | succ i =>
      have h' : i < vs.length := Nat.lt_of_succ_lt_succ h
      have hset : Observable.setAll o (v :: vs) =
          ((Observable.setAll (o.set v).1 vs).1,
            (o.set v).2 :: (Observable.setAll (o.set v).1 vs).2) := rfl
      have htake : ∀ j, Observable.setAll o ((v :: vs).take (j + 1)) =
          ((Observable.setAll (o.set v).1 (vs.take j)).1,
            (o.set v).2 :: (Observable.setAll (o.set v).1 (vs.take j)).2) := by
        intro j
        rfl
      have hsub : (o.set v).1.subscribers = o.subscribers := by
        unfold Observable.set
        split <;> rfl
      obtain ⟨ih1, ih2, ih3⟩ := ih (o.set v).1 i h'
      refine ⟨?_, ?_, ?_⟩
      · rw [hset]
        simpa [htake i] using ih1
      · rw [htake i]
        simpa [hsub] using ih2
      · intro hb
        rw [htake (i + 1), htake i]
        have := ih3 (by simpa [htake i] using hb)
        simp [this]

/-- C4: after dispatch(a) the stored state is reducer(previous state, a),
and every currently subscribed listener is notified, with no comparison
against the previous state. -/
theorem store_dispatch_spec {σ A : Type} (st : Store σ A) (a : A) :
    (st.dispatch a).1.get_state = st.reducer st.state a
    ∧ (st.dispatch a).2 = st.listeners :=
  ⟨rfl, rfl⟩

theorem onStoreChange_noop {σ τ : Type} [BEq τ] (sel : σ → τ)
    (eqf : τ → τ → Bool) (b : SelBinding τ) (s : σ)
    (h : eqf (sel s) b.obsValue = true) :
    onStoreChange sel eqf b s = (b, false) := by
  unfold onStoreChange
  by_cases hd : b.disposed <;> simp [hd, h]

/-- C5: when two consecutive dispatches each leave the selector
projection equal (by the binding equality) to the bound Observable value,
the second dispatch leaves the Observable value unchanged and does not
invoke the re-render trampoline. -/
theorem selector_short_circuit {σ τ A : Type} [BEq τ] (sel : σ → τ)
    (eqf : τ → τ → Bool) (st : Store σ A) (b : SelBinding τ) (a1 a2 : A)
    (h1 : eqf (sel ((st.dispatch a1).1.get_state)) b.obsValue = true)
    (h2 : eqf (sel (((st.dispatch a1).1.dispatch a2).1.get_state))
        ((dispatchSel sel eqf st b a1).2.1.obsValue) = true) :
    ((dispatchSel sel eqf (dispatchSel sel eqf st b a1).1
        (dispatchSel sel eqf st b a1).2.1 a2).2.1.obsValue
      = (dispatchSel sel eqf st b a1).2.1.obsValue)
    ∧ (dispatchSel sel eqf (dispatchSel sel eqf st b a1).1
        (dispatchSel sel eqf st b a1).2.1 a2).2.2 = false := by
  have e1 : (dispatchSel sel eqf st b a1).2.1 = b := by
    show (onStoreChange sel eqf b ((st.dispatch a1).1.get_state)).1 = b
    rw [onStoreChange_noop sel eqf b _ h1]
  have efst : (dispatchSel sel eqf st b a1).1 = (st.dispatch a1).1 := rfl
  have e2 : onStoreChange sel eqf ((dispatchSel sel eqf st b a1).2.1)
      (((st.dispatch a1).1.dispatch a2).1.get_state)
      = ((dispatchSel sel eqf st b a1).2.1, false) :=
    onStoreChange_noop sel eqf _ _ h2
  have eb : (dispatchSel sel eqf (dispatchSel sel eqf st b a1).1
      (dispatchSel sel eqf st b a1).2.1 a2).2.1
      = (dispatchSel sel eqf st b a1).2.1 := by
    show (onStoreChange sel eqf ((dispatchSel sel eqf st b a1).2.1)
      (((dispatchSel sel eqf st b a1).1.dispatch a2).1.get_state)).1
      = (dispatchSel sel eqf st b a1).2.1
    rw [efst, e2]
  constructor
  · exact congrArg SelBinding.obsValue eb
  · show (onStoreChange sel eqf ((dispatchSel sel eqf st b a1).2.1)
      (((dispatchSel sel eqf st b a1).1.dispatch a2).1.get_state)).2 = false
    rw [efst, e2]

/-- C6: a Destroy event for the component root disposes the component,
and after disposal no tracked store-subscription callback is left in the
store listener list (each _on_store_change closure is a fresh object, so
it occurs at most once in the listener list). -/
theorem disposal_cascade (c : CompState) (reg : PyDict Nat) (ls : List Nat)
    (cid : String) (root : Nat)
    (hnd : c.disposed = false)
    (hcnt : ∀ s ∈ c.subscriptions, ls.count s ≤ 1) :
    (onDestroyEvent root root cid reg c ls).2.1.disposed = true
    ∧ ∀ s ∈ c.subscriptions, s ∉ (onDestroyEvent root root cid reg c ls).2.2 := by
  have hev : onDestroyEvent root root cid reg c ls =
      (registryUnregister cid (some root) reg, (c.dispose ls).1, (c.dispose ls).2) := by
    unfold onDestroyEvent
    simp
  have hdp : c.dispose ls =
      (⟨true, []⟩, runUnsubs c.subscriptions ls) := by
    unfold CompState.dispose
    simp [hnd]
  rw [hev, hdp]
  exact ⟨rfl, runUnsubs_removes c.subscriptions ls hcnt⟩

/-- C7: reading the process-wide store before configuration fails with
the configuration error (RuntimeError "Store not configured" in the
source, the ConfigurationError of the spec), also through use_dispatch;
after configure_store(s) the read returns s. -/
theorem get_store_configuration (cur : Option Nat) (s : Nat) :
    get_store none = Except.error "Store not configured"
    ∧ use_dispatch none = Except.error "Store not configured"
    ∧ get_store (configure_store cur s) = Except.ok s :=
  ⟨rfl, rfl, rfl⟩

/-- C8 counterexample: subscribing the same callback twice and calling
the first unsubscribe closure twice removes both occurrences, so the
second call does have an effect on the subscriber list. -/
theorem unsubscribe_not_idempotent_counterexample :
    ¬ ((((Observable.mk 0 []).subscribe 0).subscribe 0).unsubscribeCall 0).unsubscribeCall 0
      = (((Observable.mk (0 : Nat) []).subscribe 0).subscribe 0).unsubscribeCall 0 := by
  decide

/-- C8 amended: the unsubscribe closure removes the first occurrence of
the callback, and it is idempotent provided the callback occurs at most
once in the subscriber list (when the same callback is subscribed more
than once, each further call removes one further occurrence); likewise
for the Store listener list. -/
theorem unsubscribe_idempotent_amended {α σ A : Type} (o : Observable α)
    (cb : Nat) (st : Store σ A)
    (h : o.subscribers.count cb ≤ 1)
    (hst : st.listeners.count cb ≤ 1) :
    (o.unsubscribeCall cb).subscribers.count cb = o.subscribers.count cb - 1
    ∧ (o.unsubscribeCall cb).unsubscribeCall cb = o.unsubscribeCall cb
    ∧ ((st.unsubscribeCall cb).unsubscribeCall cb).listeners
        = (st.unsubscribeCall cb).listeners := by
  refine ⟨count_removeFirst_self cb o.subscribers, ?_, ?_⟩
  · show ({ o with subscribers := removeFirst cb (removeFirst cb o.subscribers) } : Observable α)
      = { o with subscribers := removeFirst cb o.subscribers }
    rw [removeFirst_of_not_mem cb _ (not_mem_removeFirst_of_count_le_one cb _ h)]
  · show removeFirst cb (removeFirst cb st.listeners) = removeFirst cb st.listeners
    rw [removeFirst_of_not_mem cb _ (not_mem_removeFirst_of_count_le_one cb _ hst)]

end Rotk

namespace Demo

/-- C9: from state with empty tasks and next task id 1, ADD_TASK
"buy milk" yields the single task (id 1, not done) and next task id 2;
TOGGLE_TASK_DONE 1 marks it done; CLEAR_DONE_TASKS empties the list. -/
theorem todo_end_to_end :
    (reducer initialClaimState (TodoAction.ADD_TASK (some "buy milk"))).tasks
      = some [{ id := 1, text := "buy milk", done := false }]
    ∧ (reducer initialClaimState (TodoAction.ADD_TASK (some "buy milk"))).next_task_id
      = some 2
    ∧ (reducer (reducer initialClaimState (TodoAction.ADD_TASK (some "buy milk")))
        (TodoAction.TOGGLE_TASK_DONE (some 1))).tasks
      = some [{ id := 1, text := "buy milk", done := true }]
    ∧ (reducer (reducer (reducer initialClaimState (TodoAction.ADD_TASK (some "buy milk")))
        (TodoAction.TOGGLE_TASK_DONE (some 1))) TodoAction.CLEAR_DONE_TASKS).tasks
      = some [] := by
  refine ⟨?_, ?_, ?_, ?_⟩ <;> decide

/-- C10: every task-list-changing action of the four task kinds leaves
the derived metadata consistent with the new task list: summary is
"open open / done done" over the new counts and clear_enabled is
(done count > 0). -/
theorem reducer_metadata_invariant (s : TodoState) (a : TodoAction)
    (ha : isTaskAction a)
    (hch : (reducer s a).tasks ≠ s.tasks) :
    ∃ ts, (reducer s a).tasks = some ts
      ∧ (reducer s a).summary =
          some (toString (ts.countP fun t => !t.done) ++ " open / "
            ++ toString (ts.countP fun t => t.done) ++ " done")
      ∧ (reducer s a).clear_enabled =
          some (decide ((ts.countP fun t => t.done) > 0)) := by
  cases a with
  | SET_STATUS p => exact False.elim ha
  | SET_SUMMARY p => exact False.elim ha
  | SET_CLEAR_ENABLED p => exact False.elim ha
  | OTHER => exact False.elim ha
  | ADD_TASK p =>
    by_cases ht : pyStrip (p.getD "") = ""
    · have he : reducer s (TodoAction.ADD_TASK p) = s := by
        simp only [reducer]
        rw [if_pos ht]
      exact absurd (by rw [he]) hch
    · simp only [reducer, ht, if_false] at hch ⊢
      exact ⟨_, rfl, rfl, rfl⟩
  | DELETE_TASK p =>
    cases p with
    | none => exact absurd rfl hch
    | some taskId =>
      by_cases hlen : ((s.tasks.getD []).filter fun t => t.id ≠ taskId).length
          = (s.tasks.getD []).length
      · have he : reducer s (TodoAction.DELETE_TASK (some taskId)) = s := by
          simp only [reducer]
          rw [if_pos hlen]
        exact absurd (by rw [he]) hch
      · simp only [reducer, hlen, if_false] at hch ⊢
        exact ⟨_, rfl, rfl, rfl⟩
  | TOGGLE_TASK_DONE p =>
    cases p with
    | none => exact absurd rfl hch
    | some taskId =>
      by_cases hc : ((s.tasks.getD []).any fun t => t.id = taskId) = true
      · simp only [reducer, hc, if_true] at hch ⊢
        exact ⟨_, rfl, rfl, rfl⟩
      · have he : reducer s (TodoAction.TOGGLE_TASK_DONE (some taskId)) = s := by
          simp only [reducer]
          rw [if_neg hc]
        exact absurd (by rw [he]) hch
  | CLEAR_DONE_TASKS =>
    by_cases hlen : ((s.tasks.getD []).filter fun t => !t.done).length
        = (s.tasks.getD []).length
    · have he : reducer s TodoAction.CLEAR_DONE_TASKS = s := by
        simp only [reducer]
        rw [if_pos hlen]
      exact absurd (by rw [he]) hch
    · simp only [reducer, hlen, if_false] at hch ⊢
      exact ⟨_, rfl, rfl, rfl⟩

/-- Witness for C10: adding a task to the empty initial state changes
the task list and carries the recomputed metadata. -/
theorem reducer_metadata_invariant_witness :
    ∃ ts, (reducer initialClaimState (TodoAction.ADD_TASK (some "x"))).tasks
        = some ts
      ∧ (reducer initialClaimState (TodoAction.ADD_TASK (some "x"))).summary =
          some (toString (ts.countP fun t => !t.done) ++ " open / "
            ++ toString (ts.countP fun t => t.done) ++ " done")
      ∧ (reducer initialClaimState (TodoAction.ADD_TASK (some "x"))).clear_enabled =
          some (decide ((ts.countP fun t => t.done) > 0)) :=
  reducer_metadata_invariant initialClaimState (TodoAction.ADD_TASK (some "x"))
    trivial (by decide)

end Demo

namespace Rotk

/-- Witness for C3 at a concrete observable and set sequence. -/
theorem observable_set_exact_witness :
    ((Observable.setAll (⟨0, [1, 2]⟩ : Observable Nat) [5]).2.get? 0 =
      some (if ([5] : List Nat).get ⟨0, by decide⟩ ==
          (Observable.setAll (⟨0, [1, 2]⟩ : Observable Nat)
            (([5] : List Nat).take 0)).1.value
        then []
        else (Observable.setAll (⟨0, [1, 2]⟩ : Observable Nat)
          (([5] : List Nat).take 0)).1.subscribers))
    ∧ (Observable.setAll (⟨0, [1, 2]⟩ : Observable Nat)
        (([5] : List Nat).take 0)).1.subscribers
        = (⟨0, [1, 2]⟩ : Observable Nat).subscribers
    ∧ ((([5] : List Nat).get ⟨0, by decide⟩ ==
          (Observable.setAll (⟨0, [1, 2]⟩ : Observable Nat)
            (([5] : List Nat).take 0)).1.value) = true →
        (Observable.setAll (⟨0, [1, 2]⟩ : Observable Nat)
          (([5] : List Nat).take (0 + 1))).1
          = (Observable.setAll (⟨0, [1, 2]⟩ : Observable Nat)
            (([5] : List Nat).take 0)).1) :=
  observable_set_exact (⟨0, [1, 2]⟩ : Observable Nat) [5] 0 (by decide)

/-- Witness for C5 at a concrete store, selector and binding. -/
theorem selector_short_circuit_witness :
    ((dispatchSel (fun s => s) (fun x y => x == y)
        (dispatchSel (fun s => s) (fun x y => x == y)
          (⟨fun s _ => s, 0, []⟩ : Store Nat Nat) ⟨false, 0⟩ 1).1
        (dispatchSel (fun s => s) (fun x y => x == y)
          (⟨fun s _ => s, 0, []⟩ : Store Nat Nat) ⟨false, 0⟩ 1).2.1 2).2.1.obsValue
      = (dispatchSel (fun s => s) (fun x y => x == y)
          (⟨fun s _ => s, 0, []⟩ : Store Nat Nat) ⟨false, 0⟩ 1).2.1.obsValue)
    ∧ (dispatchSel (fun s => s) (fun x y => x == y)
        (dispatchSel (fun s => s) (fun x y => x == y)
          (⟨fun s _ => s, 0, []⟩ : Store Nat Nat) ⟨false, 0⟩ 1).1
        (dispatchSel (fun s => s) (fun x y => x == y)
          (⟨fun s _ => s, 0, []⟩ : Store Nat Nat) ⟨false, 0⟩ 1).2.1 2).2.2 = false :=
  selector_short_circuit (fun s => s) (fun x y => x == y)
    (⟨fun s _ => s, 0, []⟩ : Store Nat Nat) ⟨false, 0⟩ 1 2 (by decide) (by decide)

/-- Witness for C6 at a concrete component, registry and listener list. -/
theorem disposal_cascade_witness :
    (onDestroyEvent 5 5 "x" [] ⟨false, [3]⟩ [3, 7]).2.1.disposed = true
    ∧ ∀ s ∈ (⟨false, [3]⟩ : CompState).subscriptions,
        s ∉ (onDestroyEvent 5 5 "x" [] ⟨false, [3]⟩ [3, 7]).2.2 :=
  disposal_cascade ⟨false, [3]⟩ [] [3, 7] "x" 5 rfl (by decide)

/-! ## Dict lemmas for the reconciler proofs -/

theorem lookup_dictInsert_self (k : String) (v : β) (d : PyDict β) :
    (dictInsert k v d).lookup k = some v := by
  induction d with
  | nil => simp [dictInsert, List.lookup]
  | cons p rest ih =>
    obtain ⟨k', v'⟩ := p
    unfold dictInsert
    by_cases he : k' = k
    · simp [he, List.lookup]
    · simp [he, List.lookup, beq_eq_false_iff_ne.mpr (Ne.symm he), ih]

theorem lookup_dictInsert_ne (k k' : String) (v : β) (d : PyDict β)
    (h : k' ≠ k) : (dictInsert k v d).lookup k' = d.lookup k' := by
  induction d with
  | nil => simp [dictInsert, List.lookup, beq_eq_false_iff_ne.mpr h]
  | cons p rest ih =>
    obtain ⟨k0, v0⟩ := p
    unfold dictInsert
    by_cases he : k0 = k
    · subst he
      simp [List.lookup, beq_eq_false_iff_ne.mpr h]
    · simp only [he, if_false]
      by_cases hck : k' = k0
      · subst hck
        simp [List.lookup]
      · simp [List.lookup, beq_eq_false_iff_ne.mpr hck, ih]

theorem mem_keys_dictInsert (k k' : String) (v : β) (d : PyDict β)
    (h : k' ∈ dictKeys (dictInsert k v d)) : k' = k ∨ k' ∈ dictKeys d := by
  induction d with
  | nil =>
    left
    simpa [dictInsert, dictKeys] using h
  | cons p rest ih =>
    obtain ⟨k0, v0⟩ := p
    by_cases he : k0 = k
    · subst he
      have h' : k' ∈ k0 :: dictKeys rest := by
        simpa [dictInsert, dictKeys] using h
      rcases List.mem_cons.mp h' with h1 | h1
      · exact Or.inl h1
      · exact Or.inr (List.mem_cons_of_mem _ h1)
    · have h' : k' ∈ k0 :: dictKeys (dictInsert k v rest) := by
        simpa [dictInsert, he, dictKeys] using h
      rcases List.mem_cons.mp h' with h1 | h1
      · exact Or.inr (h1 ▸ List.mem_cons_self k0 (dictKeys rest))
      · rcases ih h1 with h2 | h2
        · exact Or.inl h2
        · exact Or.inr (List.mem_cons_of_mem _ h2)

theorem lookup_dictInsertAll_notmem :
    ∀ (ps : List (String × β)) (acc : PyDict β) (cid : String),
      cid ∉ ps.map Prod.fst →
      (dictInsertAll ps acc).lookup cid = acc.lookup cid := by
  intro ps
  induction ps with
  | nil => intro acc cid _; rfl
  | cons p rest ih =>
    intro acc cid h
    obtain ⟨k, v⟩ := p
    have hne : cid ≠ k := by
      intro he
      exact h (by simp [he])
    have hrest : cid ∉ rest.map Prod.fst := fun hm => h (by simp [hm])
    show (dictInsertAll rest (dictInsert k v acc)).lookup cid = acc.lookup cid
    rw [ih (dictInsert k v acc) cid hrest, lookup_dictInsert_ne k cid v acc hne]

theorem lookup_dictInsertAll_mem :
    ∀ (ps : List (String × β)) (acc : PyDict β) (cid : String) (b : β),
      (ps.map Prod.fst).Nodup → (cid, b) ∈ ps →
      (dictInsertAll ps acc).lookup cid = some b := by
  intro ps
  induction ps with
  | nil => intro acc cid b _ hmem; cases hmem
  | cons p rest ih =>
    intro acc cid b hnd hmem
    obtain ⟨k, v⟩ := p
    have hnd' : k ∉ rest.map Prod.fst ∧ (rest.map Prod.fst).Nodup := by
      simpa using hnd
    rcases List.mem_cons.mp hmem with he | hr
    · injection he with he1 he2
      subst he1
      subst he2
      show (dictInsertAll rest (dictInsert cid b acc)).lookup cid = some b
      rw [lookup_dictInsertAll_notmem rest _ cid hnd'.1,
        lookup_dictInsert_self cid b acc]
    · exact ih (dictInsert k v acc) cid b hnd'.2 hr

theorem mem_keys_dictInsertAll :
    ∀ (ps : List (String × β)) (acc : PyDict β) (k : String),
      k ∈ dictKeys (dictInsertAll ps acc) →
      k ∈ dictKeys acc ∨ k ∈ ps.map Prod.fst := by
  intro ps
  induction ps with
  | nil => intro acc k h; exact Or.inl h
  | cons p rest ih =>
    intro acc k h
    obtain ⟨k0, v0⟩ := p
    have h' : k ∈ dictKeys (dictInsertAll rest (dictInsert k0 v0 acc)) := h
    rcases ih (dictInsert k0 v0 acc) k h' with h1 | h1
    · rcases mem_keys_dictInsert k0 k v0 acc h1 with h2 | h2
      · exact Or.inr (h2 ▸ List.mem_cons_self k0 (rest.map Prod.fst))
      · exact Or.inl h2
    · exact Or.inr (List.mem_cons_of_mem _ h1)

theorem lookup_dictErase_ne :
    ∀ (d : PyDict β) (k cid : String), cid ≠ k →
      (dictErase k d).lookup cid = d.lookup cid := by
  intro d
  induction d with
  | nil => intro k cid _; rfl
  | cons p rest ih =>
    intro k cid h
    obtain ⟨k0, v0⟩ := p
    by_cases he : k0 = k
    · subst he
      have hstep : dictErase k0 ((k0, v0) :: rest) = dictErase k0 rest := by
        simp [dictErase, List.filter_cons]
      rw [hstep, ih k0 cid h]
      simp [List.lookup, beq_eq_false_iff_ne.mpr h]
    · have hstep : dictErase k ((k0, v0) :: rest) = (k0, v0) :: dictErase k rest := by
        simp [dictErase, List.filter_cons, he]
      rw [hstep]
      by_cases hck : cid = k0
      · subst hck
        simp [List.lookup]
      · simp only [List.lookup, beq_eq_false_iff_ne.mpr hck]
        exact ih k cid h

/-! ## Removal-pass lemmas -/

theorem foldl_removeStep_id (newIds : List String) :
    ∀ (keys : List String) (acc : PyDict ComponentRef × PyDict Nat × List Nat),
      (∀ k ∈ keys, k ∈ newIds) →
      keys.foldl (removeStep newIds) acc = acc := by
  intro keys
  induction keys with
  | nil => intro acc _; rfl
  | cons k rest ih =>
    intro acc h
    have hk : k ∈ newIds := h k (List.mem_cons_self k rest)
    show rest.foldl (removeStep newIds) (removeStep newIds acc k) = acc
    rw [show removeStep newIds acc k = acc from by simp [removeStep, hk]]
    exact ih acc fun t ht => h t (List.mem_cons_of_mem k ht)

/-- When every mounted id survives, the removal pass destroys nothing
and leaves both tables unchanged. -/
theorem removeAbsent_noop (newIds : List String) (m : PyDict ComponentRef)
    (w : PyDict Nat) (h : ∀ k ∈ dictKeys m, k ∈ newIds) :
    removeAbsent newIds m w = (m, w, []) :=
  foldl_removeStep_id newIds (dictKeys m) (m, w, []) h

theorem foldl_removeStep_lookup (newIds : List String) (cid : String)
    (hcid : cid ∈ newIds) :
    ∀ (keys : List String) (acc : PyDict ComponentRef × PyDict Nat × List Nat),
      (keys.foldl (removeStep newIds) acc).1.lookup cid = acc.1.lookup cid
      ∧ (keys.foldl (removeStep newIds) acc).2.1.lookup cid = acc.2.1.lookup cid := by
  intro keys
  induction keys with
  | nil => intro acc; exact ⟨rfl, rfl⟩
  | cons k rest ih =>
    intro acc
    show (rest.foldl (removeStep newIds) (removeStep newIds acc k)).1.lookup cid
        = acc.1.lookup cid
      ∧ (rest.foldl (removeStep newIds) (removeStep newIds acc k)).2.1.lookup cid
        = acc.2.1.lookup cid
    by_cases hk : k ∈ newIds
    · rw [show removeStep newIds acc k = acc from by simp [removeStep, hk]]
      exact ih acc
    · have hne : cid ≠ k := fun he => hk (he ▸ hcid)
      have hr1 : (removeStep newIds acc k).1.lookup cid = acc.1.lookup cid := by
        simp only [removeStep, hk, if_false]
        exact lookup_dictErase_ne acc.1 k cid hne
      have hr2 : (removeStep newIds acc k).2.1.lookup cid = acc.2.1.lookup cid := by
        simp only [removeStep, hk, if_false]
        exact lookup_dictErase_ne acc.2.1 k cid hne
      exact ⟨(ih (removeStep newIds acc k)).1.trans hr1,
        (ih (removeStep newIds acc k)).2.trans hr2⟩

/-- The removal pass does not touch the table entries of surviving ids. -/
theorem removeAbsent_lookup (newIds : List String) (m : PyDict ComponentRef)
    (w : PyDict Nat) (cid : String) (hcid : cid ∈ newIds) :
    (removeAbsent newIds m w).1.lookup cid = m.lookup cid
    ∧ (removeAbsent newIds m w).2.1.lookup cid = w.lookup cid :=
  foldl_removeStep_lookup newIds cid hcid (dictKeys m) (m, w, [])

/-! ## Loop characterization -/

/-- The child a given id resolves to through specs_by_id (with a dummy
for the impossible missing case). -/
def childOfD (specsById : PyDict (ChildSpec L)) (cid : String) : ComponentRef :=
  match specsById.lookup cid with
  | some s => s.child
  | none => ⟨"", 0⟩

/-- The placement list shape of a successful walk: positions count up
from pos and every non-widget field is a function of the spec at that id;
the widget values are supplied as a list. -/
def buildPls (R : L → GridOpts) (gx gy : Int)
    (specsById : PyDict (ChildSpec L)) :
    List String → Nat → List Nat → List Placement
  | [], _, _ => []
  | cid :: rest, pos, ws =>
    let opts :=
      match specsById.lookup cid with
      | some spec => resolveLayout R spec.layout
      | none => {}
    mkPlacement gx gy opts cid pos (ws.headD 0)
      :: buildPls R gx gy specsById rest (pos + 1) ws.tail

theorem lookup_mkSpecsById {L : Type} (specs : List (ChildSpec L))
    (hnd : (specs.map fun s => s.child.id).Nodup)
    (s : ChildSpec L) (hs : s ∈ specs) :
    (mkSpecsById specs).lookup s.child.id = some s := by
  have hkeys : (specs.map fun s => (s.child.id, s)).map Prod.fst
      = specs.map fun s => s.child.id := by
    rw [List.map_map]
    rfl
  exact lookup_dictInsertAll_mem (specs.map fun s => (s.child.id, s)) []
    s.child.id s (by rw [hkeys]; exact hnd)
    (List.mem_map.mpr ⟨s, hs, rfl⟩)

theorem loopChar {L : Type} (R : L → GridOpts) (gx gy : Int)
    (oldM : PyDict ComponentRef) (oldW : PyDict Nat)
    (specsById : PyDict (ChildSpec L)) :
    ∀ (ids : List String) (pos fresh : Nat) (accM : PyDict ComponentRef)
      (accW : PyDict Nat) (out : LoopOut),
      reconcileLoop R gx gy oldM oldW specsById ids pos fresh accM accW = some out →
      out.placements.length = ids.length
      ∧ out.events.length = ids.length
      ∧ out.placements
          = buildPls R gx gy specsById ids pos (out.placements.map Placement.widget)
      ∧ out.newMounted
          = dictInsertAll (ids.map fun cid => (cid, childOfD specsById cid)) accM
      ∧ out.newWidgets
          = dictInsertAll (ids.zip (out.placements.map Placement.widget)) accW := by
  intro ids
  induction ids with
  | nil =>
    intro pos fresh accM accW out h
    unfold reconcileLoop at h
    cases h
    exact ⟨rfl, rfl, rfl, rfl, rfl⟩
  | cons cid rest ih =>
    intro pos fresh accM accW out h
    unfold reconcileLoop at h
    split at h
    next => cases h
    next spec hsp =>
      split at h
      next => cases h
      next w ev fresh' hss =>
        split at h
        next => cases h
        next out' hrec =>
          cases h
          obtain ⟨ih1, ih2, ih3, ih4, ih5⟩ :=
            ih (pos + 1) fresh' (dictInsert cid spec.child accM)
              (dictInsert cid w accW) out' hrec
          refine ⟨by simp [ih1], by simp [ih2], ?_, ?_, ?_⟩
          · show mkPlacement gx gy (resolveLayout R spec.layout) cid pos w
                :: out'.placements
              = buildPls R gx gy specsById (cid :: rest) pos
                  ((mkPlacement gx gy (resolveLayout R spec.layout) cid pos w
                    :: out'.placements).map Placement.widget)
            unfold buildPls
            rw [hsp]
            simp only [List.map_cons, List.headD_cons, List.tail_cons]
            show mkPlacement gx gy (resolveLayout R spec.layout) cid pos w
                :: out'.placements
              = mkPlacement gx gy (resolveLayout R spec.layout) cid pos
                  (mkPlacement gx gy (resolveLayout R spec.layout) cid pos w).widget
                :: buildPls R gx gy specsById rest (pos + 1)
                  (out'.placements.map Placement.widget)
            rw [show (mkPlacement gx gy (resolveLayout R spec.layout) cid pos w).widget
                = w from rfl]
            rw [← ih3]
          · show out'.newMounted
              = dictInsertAll ((cid :: rest).map fun c => (c, childOfD specsById c)) accM
            rw [ih4]
            show dictInsertAll (rest.map fun c => (c, childOfD specsById c))
                (dictInsert cid spec.child accM)
              = dictInsertAll (rest.map fun c => (c, childOfD specsById c))
                (dictInsert cid (childOfD specsById cid) accM)
            rw [show childOfD specsById cid = spec.child from by
              unfold childOfD; rw [hsp]]
          · show out'.newWidgets
              = dictInsertAll ((cid :: rest).zip
                  ((mkPlacement gx gy (resolveLayout R spec.layout) cid pos w
                    :: out'.placements).map Placement.widget)) accW
            rw [ih5]
            rfl

/-- A walk in which every id reuses its mounted child: no destroy, no
mount, the fresh counter does not move, and every slot keeps its stored
widget. -/
theorem loop_reuse {L : Type} (R : L → GridOpts) (gx gy : Int)
    (oldM : PyDict ComponentRef) (oldW : PyDict Nat)
    (specsById : PyDict (ChildSpec L)) :
    ∀ (ids : List String) (pos fresh : Nat) (accM : PyDict ComponentRef)
      (accW : PyDict Nat),
      (∀ cid ∈ ids, ∃ s w, specsById.lookup cid = some s
        ∧ oldM.lookup cid = some s.child ∧ oldW.lookup cid = some w) →
      reconcileLoop R gx gy oldM oldW specsById ids pos fresh accM accW =
        some ⟨buildPls R gx gy specsById ids pos
            (ids.map fun cid => (oldW.lookup cid).getD 0),
          ids.map fun cid => SlotEvent.reused ((oldW.lookup cid).getD 0),
          dictInsertAll (ids.map fun cid => (cid, childOfD specsById cid)) accM,
          dictInsertAll (ids.map fun cid => (cid, (oldW.lookup cid).getD 0)) accW,
          fresh⟩ := by
  intro ids
  induction ids with
  | nil => intro pos fresh accM accW _; rfl
  | cons cid rest ih =>
    intro pos fresh accM accW H
    obtain ⟨s, w, hsp, hm, hw⟩ := H cid (List.mem_cons_self cid rest)
    have hslot : slotStep oldM oldW cid s.child fresh
        = some (w, SlotEvent.reused w, fresh) := by
      unfold slotStep
      rw [hm]
      simp [hw]
    have hrec := ih (pos + 1) fresh (dictInsert cid s.child accM)
      (dictInsert cid w accW)
      (fun c hc => H c (List.mem_cons_of_mem cid hc))
    have hcd : childOfD specsById cid = s.child := by
      unfold childOfD
      rw [hsp]
    simp only [reconcileLoop, hsp, hslot, hrec]
    simp only [buildPls, hsp, List.map_cons, List.headD_cons, List.tail_cons, hw,
      Option.getD_some, hcd, dictInsertAll, List.foldl_cons]

theorem map_of_zip_lookup :
    ∀ (ids : List String) (ws : List Nat) (f : String → Nat),
      ws.length = ids.length →
      (∀ c w, (c, w) ∈ ids.zip ws → f c = w) →
      ids.map f = ws := by
  intro ids
  induction ids with
  | nil =>
    intro ws f hl _
    cases ws with
    | nil => rfl
    | cons w ws' => cases hl
  | cons c rest ih =>
    intro ws f hl hf
    cases ws with
    | nil => cases hl
    | cons w ws' =>
      have h0 : f c = w := hf c w (List.mem_cons_self _ _)
      have ht : rest.map f = ws' :=
        ih ws' f (by simpa using hl)
          (fun c' w' hm => hf c' w' (List.mem_cons_of_mem _ hm))
      simp [h0, ht]

theorem mem_zip_of_mem_left :
    ∀ (ids : List String) (ws : List Nat) (cid : String),
      ws.length = ids.length → cid ∈ ids → ∃ w, (cid, w) ∈ ids.zip ws := by
  intro ids
  induction ids with
  | nil => intro ws cid _ hm; cases hm
  | cons c rest ih =>
    intro ws cid hl hm
    cases ws with
    | nil => cases hl
    | cons w ws' =>
      rcases List.mem_cons.mp hm with he | hr
      · subst he
        exact ⟨w, List.mem_cons_self _ _⟩
      · obtain ⟨w', hw'⟩ := ih ws' cid (by simpa using hl) hr
        exact ⟨w', List.mem_cons_of_mem _ hw'⟩

theorem zip_map_self (f : String → Nat) :
    ∀ ids : List String, ids.zip (ids.map f) = ids.map fun c => (c, f c) := by
  intro ids
  induction ids with
  | nil => rfl
  | cons c rest ih => simp [ih]

theorem slotDestroyed_reused (f : String → Nat) (ids : List String) :
    slotDestroyed (ids.map fun c => SlotEvent.reused (f c)) = [] := by
  induction ids with
  | nil => rfl
  | cons c rest ih => simp [slotDestroyed, List.filterMap_cons, ih]

theorem mountedHandles_reused (f : String → Nat) (ids : List String) :
    mountedHandles (ids.map fun c => SlotEvent.reused (f c)) = [] := by
  induction ids with
  | nil => rfl
  | cons c rest ih => simp [mountedHandles, List.filterMap_cons, ih]

/-- What the walk does at each position of the new id list, as a function
of the pre-walk tables. -/
theorem loop_events {L : Type} (R : L → GridOpts) (gx gy : Int)
    (oldM : PyDict ComponentRef) (oldW : PyDict Nat)
    (specsById : PyDict (ChildSpec L)) :
    ∀ (ids : List String) (pos fresh : Nat) (accM : PyDict ComponentRef)
      (accW : PyDict Nat) (out : LoopOut),
      reconcileLoop R gx gy oldM oldW specsById ids pos fresh accM accW = some out →
      ∀ cid ev, (cid, ev) ∈ ids.zip out.events →
        ∃ spec, specsById.lookup cid = some spec
          ∧ ((∀ c, oldM.lookup cid = some c → c.ref = spec.child.ref →
                ∃ w, oldW.lookup cid = some w ∧ ev = SlotEvent.reused w)
            ∧ (∀ c, oldM.lookup cid = some c → c.ref ≠ spec.child.ref →
                ∃ w', ev = SlotEvent.replacedMount (oldW.lookup cid) w')
            ∧ (oldM.lookup cid = none → ∃ w', ev = SlotEvent.mountedNew w')) := by
  intro ids
  induction ids with
  | nil =>
    intro pos fresh accM accW out h cid ev hmem
    unfold reconcileLoop at h
    cases h
    cases hmem
  | cons cid0 rest ih =>
    intro pos fresh accM accW out h cid ev hmem
    unfold reconcileLoop at h
    split at h
    next => cases h
    next spec0 hsp0 =>
      split at h
      next => cases h
      next w0 ev0 fresh' hss =>
        split at h
        next => cases h
        next out' hrec =>
          cases h
          rcases List.mem_cons.mp hmem with he | hr
          · injection he with he1 he2
            subst he1
            subst he2
            refine ⟨spec0, hsp0, ?_, ?_, ?_⟩
            · intro c hcm hcr
              unfold slotStep at hss
              simp only [hcm] at hss
              rw [if_pos hcr] at hss
              cases hwv : oldW.lookup cid with
              | none =>
                simp only [hwv] at hss
                cases hss
              | some wv =>
                simp only [hwv] at hss
                injection hss with h1
                injection h1 with hw1 h2
                injection h2 with hev1 hf1
                exact ⟨wv, rfl, hev1.symm⟩
            · intro c hcm hcr
              unfold slotStep at hss
              simp only [hcm] at hss
              rw [if_neg hcr] at hss
              injection hss with h1
              injection h1 with hw1 h2
              injection h2 with hev1 hf1
              exact ⟨fresh, hev1.symm⟩
            · intro hcm
              unfold slotStep at hss
              simp only [hcm] at hss
              injection hss with h1
              injection h1 with hw1 h2
              injection h2 with hev1 hf1
              exact ⟨fresh, hev1.symm⟩
          · exact ih (pos + 1) fresh' (dictInsert cid0 spec0.child accM)
              (dictInsert cid0 w0 accW) out' hrec cid ev hr

/-- C1: refreshing a container (Row or Column, through their shared
_refresh_children body) a second time with the unchanged keyed child
list — same ids, same child-instance references, same layout options,
same order — destroys no native handle (neither in the removal pass nor
in the slot walk), mounts no child, and produces placements identical to
the first refresh (same grid position, sticky, padding, weight and
minsize per slot), leaving the container tables and the handle counter
unchanged. -/
theorem reconcile_idempotent {L : Type} (R : L → GridOpts) (gx gy : Int)
    (st : AxisState) (specs : List (ChildSpec L)) (n : Nat)
    (out1 out2 : RefreshOut)
    (hnd : (specs.map fun s => s.child.id).Nodup)
    (h1 : refreshChildren R gx gy st specs n = some out1)
    (h2 : refreshChildren R gx gy out1.state specs out1.fresh = some out2) :
    out2.removed = [] ∧ slotDestroyed out2.events = []
    ∧ mountedHandles out2.events = []
    ∧ out2.placements = out1.placements
    ∧ out2.state = out1.state ∧ out2.fresh = out1.fresh := by
  simp only [refreshChildren] at h1
  split at h1
  · cases h1
  · rename_i lo1 hloop1
    cases h1
    obtain ⟨hlen1, hevlen1, hshape1, hnm1, hnw1⟩ :=
      loopChar R gx gy _ _ _ _ 0 n [] [] lo1 hloop1
    have hpairkeys : (((specs.map fun s => s.child.id).map
        fun c => (c, childOfD (mkSpecsById specs) c)).map Prod.fst)
        = specs.map fun s => s.child.id := by
      rw [List.map_map]
      exact List.map_id _
    have hkeysub : ∀ k ∈ dictKeys lo1.newMounted,
        k ∈ specs.map fun s => s.child.id := by
      intro k hk
      rw [hnm1] at hk
      rcases mem_keys_dictInsertAll _ [] k hk with hx | hx
      · cases hx
      · rw [hpairkeys] at hx
        exact hx
    have hws1len : (lo1.placements.map Placement.widget).length
        = (specs.map fun s => s.child.id).length := by
      rw [List.length_map, hlen1]
    have hzipkeys : (((specs.map fun s => s.child.id).zip
        (lo1.placements.map Placement.widget)).map Prod.fst)
        = specs.map fun s => s.child.id :=
      List.map_fst_zip _ _ (le_of_eq hws1len.symm)
    have hwl : ∀ c w, (c, w) ∈ (specs.map fun s => s.child.id).zip
        (lo1.placements.map Placement.widget) →
        lo1.newWidgets.lookup c = some w := by
      intro c w hm
      rw [hnw1]
      exact lookup_dictInsertAll_mem _ [] c w (by rw [hzipkeys]; exact hnd) hm
    have hml : ∀ cid ∈ specs.map fun s => s.child.id,
        lo1.newMounted.lookup cid
          = some (childOfD (mkSpecsById specs) cid) := by
      intro cid hc
      rw [hnm1]
      exact lookup_dictInsertAll_mem _ [] cid _
        (by rw [hpairkeys]; exact hnd) (List.mem_map.mpr ⟨cid, hc, rfl⟩)
    have H : ∀ cid ∈ specs.map fun s => s.child.id,
        ∃ sp w, (mkSpecsById specs).lookup cid = some sp
          ∧ lo1.newMounted.lookup cid = some sp.child
          ∧ lo1.newWidgets.lookup cid = some w := by
      intro cid hc
      obtain ⟨sp, hs, hid⟩ := List.mem_map.mp hc
      obtain ⟨w, hwmem⟩ := mem_zip_of_mem_left _ _ cid hws1len hc
      refine ⟨sp, w, ?_, ?_, hwl cid w hwmem⟩
      · rw [← hid]
        exact lookup_mkSpecsById specs hnd sp hs
      · rw [hml cid hc]
        have hcd : childOfD (mkSpecsById specs) cid = sp.child := by
          unfold childOfD
          rw [← hid, lookup_mkSpecsById specs hnd sp hs]
        rw [hcd]
    have hrm2 : removeAbsent (specs.map fun s => s.child.id)
        lo1.newMounted lo1.newWidgets
        = (lo1.newMounted, lo1.newWidgets, []) :=
      removeAbsent_noop _ _ _ hkeysub
    have hloop2 := loop_reuse R gx gy lo1.newMounted lo1.newWidgets
      (mkSpecsById specs) (specs.map fun s => s.child.id) 0 lo1.fresh [] [] H
    simp only [refreshChildren] at h2
    split at h2
    · cases h2
    · rename_i lo2 hloop2'
      cases h2
      simp only [hrm2] at hloop2'
      have hlo2 : lo2 = ⟨buildPls R gx gy (mkSpecsById specs)
            (specs.map fun s => s.child.id) 0
            ((specs.map fun s => s.child.id).map
              fun c => (lo1.newWidgets.lookup c).getD 0),
          (specs.map fun s => s.child.id).map
            fun c => SlotEvent.reused ((lo1.newWidgets.lookup c).getD 0),
          dictInsertAll ((specs.map fun s => s.child.id).map
            fun c => (c, childOfD (mkSpecsById specs) c)) [],
          dictInsertAll ((specs.map fun s => s.child.id).map
            fun c => (c, (lo1.newWidgets.lookup c).getD 0)) [],
          lo1.fresh⟩ := by
        have hq := hloop2'.symm.trans hloop2
        injection hq
      subst hlo2
      have hws : ((specs.map fun s => s.child.id).map
          fun c => (lo1.newWidgets.lookup c).getD 0)
          = lo1.placements.map Placement.widget :=
        map_of_zip_lookup _ _ _ hws1len
          (fun c w hm => by rw [hwl c w hm]; rfl)
      refine ⟨by simp [hrm2], slotDestroyed_reused _ _, mountedHandles_reused _ _,
        ?_, ?_, rfl⟩
      · show buildPls R gx gy (mkSpecsById specs)
            (specs.map fun s => s.child.id) 0
            ((specs.map fun s => s.child.id).map
              fun c => (lo1.newWidgets.lookup c).getD 0)
          = lo1.placements
        rw [hws]
        exact hshape1.symm
      · show AxisState.mk
            (dictInsertAll ((specs.map fun s => s.child.id).map
              fun c => (c, childOfD (mkSpecsById specs) c)) [])
            (dictInsertAll ((specs.map fun s => s.child.id).map
              fun c => (c, (lo1.newWidgets.lookup c).getD 0)) [])
            (specs.map fun s => s.child.id)
          = AxisState.mk lo1.newMounted lo1.newWidgets
            (specs.map fun s => s.child.id)
        have hw2 : dictInsertAll ((specs.map fun s => s.child.id).map
            fun c => (c, (lo1.newWidgets.lookup c).getD 0)) []
            = lo1.newWidgets := by
          rw [← zip_map_self (fun c => (lo1.newWidgets.lookup c).getD 0)
            (specs.map fun s => s.child.id), hws]
          exact hnw1.symm
        rw [hw2, ← hnm1]

/-- C2: for an id in the new child list of a refresh, the walk acts by
exactly the source case split: a mounted id whose new child is the same
instance reuses the stored native handle (whatever its position index);
a mounted id with a different instance destroys the old handle and
mounts the new instance fresh; an unmounted id mounts fresh. -/
theorem reconcile_case_split {L : Type} (R : L → GridOpts) (gx gy : Int)
    (st : AxisState) (specs : List (ChildSpec L)) (n : Nat)
    (out : RefreshOut)
    (hnd : (specs.map fun s => s.child.id).Nodup)
    (h : refreshChildren R gx gy st specs n = some out)
    (sp : ChildSpec L) (hs : sp ∈ specs) (cid : String) (ev : SlotEvent)
    (hcid : sp.child.id = cid)
    (hmem : (cid, ev) ∈ (specs.map fun s => s.child.id).zip out.events) :
    (∀ c, st.mounted.lookup cid = some c → c.ref = sp.child.ref →
        ∃ w, st.widgets.lookup cid = some w ∧ ev = SlotEvent.reused w)
    ∧ (∀ c, st.mounted.lookup cid = some c → c.ref ≠ sp.child.ref →
        ∃ w', ev = SlotEvent.replacedMount (st.widgets.lookup cid) w')
    ∧ (st.mounted.lookup cid = none →
        ∃ w', ev = SlotEvent.mountedNew w') := by
  simp only [refreshChildren] at h
  split at h
  · cases h
  · rename_i lo hloop
    cases h
    have hcidmem : cid ∈ specs.map fun s => s.child.id := by
      rw [← hcid]
      exact List.mem_map.mpr ⟨sp, hs, rfl⟩
    have hrm := removeAbsent_lookup (specs.map fun s => s.child.id)
      st.mounted st.widgets cid hcidmem
    obtain ⟨spec, hsp, hc1, hc2, hc3⟩ :=
      loop_events R gx gy _ _ _ _ 0 n [] [] lo hloop cid ev hmem
    have hspec : spec = sp := by
      have hls := lookup_mkSpecsById specs hnd sp hs
      rw [hcid] at hls
      rw [hls] at hsp
      injection hsp with hq
      exact hq.symm
    subst hspec
    refine ⟨?_, ?_, ?_⟩
    · intro c hcm hcr
      obtain ⟨w, hw, he⟩ := hc1 c (hrm.1.trans hcm) hcr
      exact ⟨w, hrm.2.symm.trans hw, he⟩
    · intro c hcm hcr
      obtain ⟨w', he⟩ := hc2 c (hrm.1.trans hcm) hcr
      rw [hrm.2] at he
      exact ⟨w', he⟩
    · intro hm
      exact hc3 (hrm.1.trans hm)

/-- Witness for C1: refreshing the one-child Row list twice from the
empty container state. -/
theorem reconcile_idempotent_witness :
    exOut2.removed = [] ∧ slotDestroyed exOut2.events = []
    ∧ mountedHandles exOut2.events = []
    ∧ exOut2.placements = exOut1.placements
    ∧ exOut2.state = exOut1.state ∧ exOut2.fresh = exOut1.fresh :=
  reconcile_idempotent rowResolve 6 4 ⟨[], [], []⟩ exSpecs 0 exOut1 exOut2
    (by decide) (by decide) (by decide)

/-- Witness for C2: the first refresh of the one-child Row list mounts
the unmounted id fresh. -/
theorem reconcile_case_split_witness :
    (∀ c, (⟨[], [], []⟩ : AxisState).mounted.lookup "a" = some c →
        c.ref = ({ child := ⟨"a", 1⟩, layout := none } :
          ChildSpec RowChildLayout).child.ref →
        ∃ w, (⟨[], [], []⟩ : AxisState).widgets.lookup "a" = some w
          ∧ SlotEvent.mountedNew 0 = SlotEvent.reused w)
    ∧ (∀ c, (⟨[], [], []⟩ : AxisState).mounted.lookup "a" = some c →
        c.ref ≠ ({ child := ⟨"a", 1⟩, layout := none } :
          ChildSpec RowChildLayout).child.ref →
        ∃ w', SlotEvent.mountedNew 0 = SlotEvent.replacedMount
          ((⟨[], [], []⟩ : AxisState).widgets.lookup "a") w')
    ∧ ((⟨[], [], []⟩ : AxisState).mounted.lookup "a" = none →
        ∃ w', SlotEvent.mountedNew 0 = SlotEvent.mountedNew w') :=
  reconcile_case_split rowResolve 6 4 ⟨[], [], []⟩ exSpecs 0 exOut1
    (by decide) (by decide) { child := ⟨"a", 1⟩, layout := none } (by decide)
    "a" (SlotEvent.mountedNew 0) rfl (by decide)

/-- Witness for C8 amended at a concrete observable and store. -/
theorem unsubscribe_idempotent_amended_witness :
    ((⟨0, [2]⟩ : Observable Nat).unsubscribeCall 2).subscribers.count 2
      = (⟨0, [2]⟩ : Observable Nat).subscribers.count 2 - 1
    ∧ ((⟨0, [2]⟩ : Observable Nat).unsubscribeCall 2).unsubscribeCall 2
      = (⟨0, [2]⟩ : Observable Nat).unsubscribeCall 2
    ∧ (((⟨fun s _ => s, 0, [2]⟩ : Store Nat Nat).unsubscribeCall 2).unsubscribeCall 2).listeners
      = ((⟨fun s _ => s, 0, [2]⟩ : Store Nat Nat).unsubscribeCall 2).listeners :=
  unsubscribe_idempotent_amended (⟨0, [2]⟩ : Observable Nat) 2
    (⟨fun s _ => s, 0, [2]⟩ : Store Nat Nat) (by decide) (by decide)

end Rotk
